import Mathlib

/-!
Verification of the yacht testing harness against its natural-language
specification.

The harness provisions database servers, runs scripted query workloads and
compares the produced output with recorded golden files.  The development
below is a shallow embedding of the harness source:

* the artefact/lane lifecycle manager (`Lane`, the two artefact queues and
  the ordered cleanup operations);
* the test-execution engine (line scanning, statement submission, golden
  file comparison);
* the suite orchestrator loop (fail handling, force mode);
* the server provisioning pipeline (executable check, install/start
  artefact registration, escalating shutdown, concurrent cluster bring-up).

Artefacts are represented by their identities; a call to an artefact's
`Remove()` method is recorded in an explicit trace, in call order.  Fallible
operations return `Except`/`Option`; the opaque database connection is a
function from a statement to an `Except`-wrapped rendered response.
-/

namespace Yacht

/-- Drain of an artefact queue, `for _, artefact := range queue`, where the
loop body calls the artefact's release operation.  The result is the trace of
release calls, in loop order. -/
def drainQueue {α : Type} (queue : List α) : List α :=
  queue.foldl (fun trace artefact => trace ++ [artefact]) []

theorem drainQueue_eq_queue {α : Type} (queue : List α) : drainQueue queue = queue := by
  have h : ∀ (q acc : List α), q.foldl (fun trace artefact => trace ++ [artefact]) acc
      = acc ++ q := by
    intro q
    induction q with
    | nil => intro acc; simp [List.foldl]
    | cons a q ih => intro acc; simp [List.foldl, ih, List.append_assoc]
  simpa using h queue []

/-- A test lane: a working directory together with the two ordered artefact
queues, the accumulated failed-test list, and the leased-address pool.  The
`leased` field is modelled from the spec (the lane keeps "a set of leased
network addresses"); addresses are represented by natural-number identities. -/
structure Lane (α : Type) where
  removeBeforeNextSuite : List α
  removeBeforeExit : List α
  dir : String
  id : String
  failed : List String
  leased : List Nat
deriving DecidableEq

/-- Append an artefact to the exit-scoped queue. -/
def Lane.AddExitArtefact {α : Type} (lane : Lane α) (artefact : α) : Lane α :=
  { lane with removeBeforeExit := lane.removeBeforeExit ++ [artefact] }

/-- Append an artefact to the suite-scoped queue. -/
def Lane.AddSuiteArtefact {α : Type} (lane : Lane α) (artefact : α) : Lane α :=
  { lane with removeBeforeNextSuite := lane.removeBeforeNextSuite ++ [artefact] }

/-- Clear the lane between two test suite invocations: remove the exit-scoped
artefacts, empty their queue, then remove the suite-scoped artefacts, empty
their queue, and clear the failed-test list.  Returns the cleaned lane and the
trace of release calls. -/
def Lane.CleanupBeforeNextSuite {α : Type} (lane : Lane α) : Lane α × List α :=
  let exitTrace := drainQueue lane.removeBeforeExit
  let lane1 := { lane with removeBeforeExit := [] }
  let suiteTrace := drainQueue lane1.removeBeforeNextSuite
  let lane2 := { lane1 with removeBeforeNextSuite := [] }
  ({ lane2 with failed := [] }, exitTrace ++ suiteTrace)

/-- Remove only the exit-scoped artefacts (abort/interrupt path), emptying
that queue; everything else on the lane is untouched. -/
def Lane.CleanupBeforeExit {α : Type} (lane : Lane α) : Lane α × List α :=
  ({ lane with removeBeforeExit := [] }, drainQueue lane.removeBeforeExit)

/-- The two cleanup entry points that may be invoked on a lane. -/
inductive CleanupOp where
  | beforeNextSuite
  | beforeExit
deriving DecidableEq

def runCleanup {α : Type} : CleanupOp → Lane α → Lane α × List α
  | .beforeNextSuite, lane => lane.CleanupBeforeNextSuite
  | .beforeExit, lane => lane.CleanupBeforeExit

/-- Execute a sequence of cleanup calls, concatenating the release traces. -/
def runCleanups {α : Type} : List CleanupOp → Lane α → Lane α × List α
  | [], lane => (lane, [])
  | op :: ops, lane =>
    let step := runCleanup op lane
    let rest := runCleanups ops step.1
    (rest.1, step.2 ++ rest.2)

theorem runCleanup_count {α : Type} [DecidableEq α] (op : CleanupOp) (lane : Lane α)
    (a : α) :
    (runCleanup op lane).2.count a + (runCleanup op lane).1.removeBeforeExit.count a
      + (runCleanup op lane).1.removeBeforeNextSuite.count a
    = lane.removeBeforeExit.count a + lane.removeBeforeNextSuite.count a := by
  cases op <;>
    simp [runCleanup, Lane.CleanupBeforeNextSuite, Lane.CleanupBeforeExit,
      drainQueue_eq_queue, List.count_append]

theorem runCleanups_count {α : Type} [DecidableEq α] (ops : List CleanupOp)
    (lane : Lane α) (a : α) :
    (runCleanups ops lane).2.count a + (runCleanups ops lane).1.removeBeforeExit.count a
      + (runCleanups ops lane).1.removeBeforeNextSuite.count a
    = lane.removeBeforeExit.count a + lane.removeBeforeNextSuite.count a := by
  induction ops generalizing lane with
  | nil => simp [runCleanups]
  | cons op ops ih =>
    have hstep := runCleanup_count op lane a
    have hrest := ih (runCleanup op lane).1
    simp only [runCleanups, List.count_append]
    omega

/-- Claim C3: one call to the between-suites clear operation removes every
exit-scoped artefact in append order, then every suite-scoped artefact in
append order, leaves both queues empty, and clears the failed-test list. -/
theorem C3_cleanup_before_next_suite {α : Type} (lane : Lane α) :
    (lane.CleanupBeforeNextSuite).2
        = lane.removeBeforeExit ++ lane.removeBeforeNextSuite
      ∧ (lane.CleanupBeforeNextSuite).1.removeBeforeExit = []
      ∧ (lane.CleanupBeforeNextSuite).1.removeBeforeNextSuite = []
      ∧ (lane.CleanupBeforeNextSuite).1.failed = [] := by
  refine ⟨?_, rfl, rfl, rfl⟩
  simp [Lane.CleanupBeforeNextSuite, drainQueue_eq_queue]

/-- Claim C7: the abort/interrupt-path clear operation removes only the
artefacts of the exit-scoped queue, in append order, and empties that queue;
the suite-scoped queue, the failed-test list and the lane directory are left
unchanged. -/
theorem C7_cleanup_before_exit_frame {α : Type} (lane : Lane α) :
    (lane.CleanupBeforeExit).2 = lane.removeBeforeExit
      ∧ (lane.CleanupBeforeExit).1.removeBeforeExit = []
      ∧ (lane.CleanupBeforeExit).1.removeBeforeNextSuite = lane.removeBeforeNextSuite
      ∧ (lane.CleanupBeforeExit).1.failed = lane.failed
      ∧ (lane.CleanupBeforeExit).1.dir = lane.dir
      ∧ (lane.CleanupBeforeExit).1.id = lane.id := by
  exact ⟨drainQueue_eq_queue _, rfl, rfl, rfl, rfl, rfl⟩

/-- Claim C10: an artefact queued at most once on the lane has its release
operation invoked at most once across any sequence of cleanup calls, because
every cleanup empties the queue it drained before returning. -/
theorem C10_remove_at_most_once {α : Type} [DecidableEq α] (ops : List CleanupOp)
    (lane : Lane α) (a : α)
    (h : lane.removeBeforeExit.count a + lane.removeBeforeNextSuite.count a ≤ 1) :
    (runCleanups ops lane).2.count a ≤ 1 := by
  have := runCleanups_count ops lane a
  omega

/-- A concrete instance of claim C10: three consecutive cleanup calls on a
lane holding artefacts 1, 2 in the exit queue and 3 in the suite queue
release each artefact exactly once. -/
theorem C10_remove_at_most_once_witness :
    (⟨[3], [1, 2], "var/1", "1", [], []⟩ : Lane Nat).removeBeforeExit.count 2
        + (⟨[3], [1, 2], "var/1", "1", [], []⟩ : Lane Nat).removeBeforeNextSuite.count 2 ≤ 1
    ∧ (runCleanups [CleanupOp.beforeExit, CleanupOp.beforeNextSuite, CleanupOp.beforeExit]
        (⟨[3], [1, 2], "var/1", "1", [], []⟩ : Lane Nat)).2.count 2 ≤ 1 :=
  ⟨by decide,
   C10_remove_at_most_once
     [CleanupOp.beforeExit, CleanupOp.beforeNextSuite, CleanupOp.beforeExit]
     (⟨[3], [1, 2], "var/1", "1", [], []⟩ : Lane Nat) 2 (by decide)⟩

/-! ### Test execution and golden-file comparison -/

/-- Whitespace class of the Go regular-expression engine, as used by the
comment pattern of the test-file scanner. -/
def goSpace (c : Char) : Bool :=
  c = ' ' || c = '\t' || c = '\n' || c = '\x0c' || c = '\r'

/-- Matching of a script line against the comment pattern: optional leading
whitespace followed either by the end of the line or by a comment opener
(double dash or double slash) and arbitrary text. -/
def commentREMatches (line : String) : Bool :=
  match line.toList.dropWhile goSpace with
  | [] => true
  | '-' :: '-' :: _ => true
  | '/' :: '/' :: _ => true
  | _ => false

/-- The line-scanning loop of a test run.  Every input line is echoed to the
output followed by a newline; a line matching the comment pattern is never
executed; any other line is submitted to the connection on its own, and the
rendered response is appended right after the echoed line.  The result is the
final output content together with the trace of submitted statements, or the
first transport error. -/
def runTestLoop (execute : String → Except String String) :
    List String → String → List String → Except String (String × List String)
  | [], out, submitted => Except.ok (out, submitted)
  | line :: rest, out, submitted =>
    let out1 := out ++ line ++ "\n"
    if commentREMatches line then
      runTestLoop execute rest out1 submitted
    else
      match execute line with
      | Except.ok response =>
        runTestLoop execute rest (out1 ++ response) (submitted ++ [line])
      | Except.error e => Except.error e

/-- A connection whose every statement execution succeeds with a fixed
rendered response. -/
def execOK : String → Except String String := fun _ => Except.ok "  OK\n"

/-- The on-disk state relevant to one test file: the content of the golden
file at the derived result path, of the reject file, and of the temporary
output file in the lane directory; `none` means the file does not exist. -/
structure TestFS where
  result : Option String
  reject : Option String
  tmp : Option String
deriving DecidableEq

/-- The comparison stage at the end of a test run, operating on the flushed
temporary output `out`: compute the equal and new flags from the golden file,
then delete the temporary file on a pass, persist it as the new golden file
on a first run, or persist it as the reject file on a mismatch. -/
def RunTest_compare (fs : TestFS) (out : String) : String × TestFS :=
  let isEqualResult : Bool := match fs.result with
    | some golden => out == golden
    | none => false
  let isNew : Bool := fs.result.isNone
  if isEqualResult then ("pass", { fs with tmp := none })
  else if isNew then ("new", { fs with tmp := none, result := some out })
  else ("fail", { fs with tmp := none, reject := some out })

/-- One full test run: scan the script writing to a fresh temporary output
file, then run the comparison stage; a transport error aborts the run. -/
def RunTest (execute : String → Except String String) (lines : List String)
    (fs : TestFS) : Except String (String × TestFS) :=
  match runTestLoop execute lines "" [] with
  | Except.error e => Except.error e
  | Except.ok (out, _) => Except.ok (RunTest_compare { fs with tmp := some out } out)

/-- Modelled from the spec's comparison paragraph, for the refinement claim:
if a golden file exists, byte-compare it with the produced output — equal
gives outcome pass and the temporary output is discarded, unequal gives
outcome fail and the temporary output is persisted as the reject file; if no
golden file exists the output is persisted as the new golden file with
outcome new. -/
def comparisonSpec (fs : TestFS) (out : String) : String × TestFS :=
  match fs.result with
  | some golden =>
    if out == golden then ("pass", { fs with tmp := none })
    else ("fail", { fs with tmp := none, reject := some out })
  | none => ("new", { fs with tmp := none, result := some out })

/-- Claim C1 as stated is false: a two-line statement with no terminator on
the first line is submitted as two separate statements, one per non-comment
line, not as the newline-joined assembly. -/
theorem C1_counterexample :
    runTestLoop execOK ["SELECT", "1;"] "" []
        = Except.ok ("SELECT\n  OK\n1;\n  OK\n", ["SELECT", "1;"])
      ∧ (["SELECT", "1;"] : List String) ≠ ["SELECT\n1;"] :=
  ⟨rfl, by decide⟩

/-- Claim C1, amended: there is no multi-line statement assembly — when every
execution succeeds, the scanner submits exactly the non-comment lines of the
script, each on its own and in script order, regardless of any trailing
statement terminator. -/
theorem C1_each_line_submitted_separately (execute : String → Except String String)
    (h : ∀ s, (execute s).isOk = true) (lines : List String) (out0 : String)
    (sub0 : List String) :
    ∃ out, runTestLoop execute lines out0 sub0
      = Except.ok (out, sub0 ++ lines.filter (fun l => !commentREMatches l)) := by
  induction lines generalizing out0 sub0 with
  | nil => exact ⟨out0, by simp [runTestLoop]⟩
  | cons line rest ih =>
    by_cases hc : commentREMatches line = true
    · have := ih (out0 ++ line ++ "\n") sub0
      obtain ⟨out, hout⟩ := this
      exact ⟨out, by simp [runTestLoop, hc, hout, List.filter_cons, hc]⟩
    · have hok := h line
      cases hex : execute line with
      | error e => rw [hex] at hok; simp [Except.isOk, Except.toBool] at hok
      | ok response =>
        obtain ⟨out, hout⟩ := ih (out0 ++ line ++ "\n" ++ response) (sub0 ++ [line])
        refine ⟨out, ?_⟩
        simp only [runTestLoop, hc, if_false, hex, Bool.not_eq_true] at hout ⊢
        rw [hout]
        simp [List.filter_cons, hc]

/-- Witness for the amended claim C1 at a concrete script with one comment
line and one terminated statement. -/
theorem C1_each_line_submitted_separately_witness :
    (∀ s, (execOK s).isOk = true)
      ∧ ∃ out, runTestLoop execOK ["-- setup", "SELECT 1;"] "" []
          = Except.ok (out,
              [] ++ List.filter (fun l => !commentREMatches l) ["-- setup", "SELECT 1;"]) :=
  ⟨fun _ => rfl,
   C1_each_line_submitted_separately execOK (fun _ => rfl) ["-- setup", "SELECT 1;"] "" []⟩

/-- Claim C2: the comparison stage of a completed test run behaves exactly as
the spec states — an existing, byte-equal golden file gives outcome pass and
the temporary output is deleted; an existing, differing golden file gives
outcome fail and the temporary output is persisted as the reject file; a
missing golden file makes the produced output the new golden file with
outcome new. -/
theorem C2_comparison_refines_spec (fs : TestFS) (out : String) :
    RunTest_compare fs out = comparisonSpec fs out := by
  cases hres : fs.result with
  | none => simp [RunTest_compare, comparisonSpec, hres]
  | some golden =>
    by_cases h : (out == golden) = true <;>
      simp [RunTest_compare, comparisonSpec, hres, h]

/-- The on-disk state of a test whose earlier failing run left a reject file
behind, while the golden file matches the output the test now produces. -/
def staleRejectFS : TestFS :=
  { result := some "SELECT 1;\n  OK\n", reject := some "stale", tmp := none }

/-- Claim C9 as stated is false: a passing re-run deletes only the temporary
output; a reject file left behind by an earlier failing run remains on disk
even though the outcome is pass. -/
theorem C9_stale_reject_counterexample :
    RunTest execOK ["SELECT 1;"] staleRejectFS
        = Except.ok ("pass",
            { result := some "SELECT 1;\n  OK\n", reject := some "stale", tmp := none })
      ∧ (some "stale" : Option String) ≠ none :=
  ⟨rfl, by decide⟩

/-- Claim C9, amended: when the produced output byte-equals the existing
golden file the outcome is pass, the temporary output file is deleted and no
reject file is created — the reject path is left exactly as it was. -/
theorem C9_pass_creates_no_reject (fs : TestFS) (out : String)
    (h : fs.result = some out) :
    (RunTest_compare fs out).1 = "pass"
      ∧ (RunTest_compare fs out).2.reject = fs.reject
      ∧ (RunTest_compare fs out).2.tmp = none := by
  simp [RunTest_compare, h]

/-- Witness for the amended claim C9 at a concrete state with no reject
file. -/
theorem C9_pass_creates_no_reject_witness :
    ({ result := some "out", reject := none, tmp := none } : TestFS).result = some "out"
      ∧ ((RunTest_compare { result := some "out", reject := none, tmp := none } "out").1
            = "pass"
        ∧ (RunTest_compare { result := some "out", reject := none, tmp := none } "out").2.reject
            = ({ result := some "out", reject := none, tmp := none } : TestFS).reject
        ∧ (RunTest_compare { result := some "out", reject := none, tmp := none } "out").2.tmp
            = none) :=
  ⟨rfl, C9_pass_creates_no_reject { result := some "out", reject := none, tmp := none } "out" rfl⟩

/-! ### Suite orchestrator -/

/-- Does a harness-level test result carry the fail outcome? -/
def isFail (res : Except String String) : Bool :=
  match res with
  | Except.ok rc => rc == "fail"
  | Except.error _ => false

/-- The per-suite test loop.  Each entry pairs a test's full name with the
result of running it (a harness error, or an outcome string).  A harness
error aborts the suite with return code 0 and the error.  On a fail outcome
the suite return code is set to 1 and the test name is appended to the
failed-test list; without force mode the loop then returns immediately, with
force mode it continues with the remaining tests.  The third component of
the result records which tests were run, in order. -/
def RunSuiteLoop (force : Bool) (suiteRc : Nat) (laneFailed ran : List String) :
    List (String × Except String String) → Except String (Nat × List String × List String)
  | [] => Except.ok (suiteRc, laneFailed, ran)
  | (name, res) :: rest =>
    match res with
    | Except.error e => Except.error e
    | Except.ok testRc =>
      let ran1 := ran ++ [name]
      if testRc == "fail" then
        let laneFailed1 := laneFailed ++ [name]
        if force then RunSuiteLoop force 1 laneFailed1 ran1 rest
        else Except.ok (1, laneFailed1, ran1)
      else RunSuiteLoop force suiteRc laneFailed ran1 rest

/-- Run a suite: the test loop started with return code 0, an empty
failed-test list and no test run yet. -/
def RunSuite (force : Bool) (tests : List (String × Except String String)) :
    Except String (Nat × List String × List String) :=
  RunSuiteLoop force 0 [] [] tests

/-- The names of the tests run when the suite stops at the first failing
test: every test up to and including that one. -/
def ranUntilFirstFail : List (String × Except String String) → List String
  | [] => []
  | (name, res) :: rest =>
    if isFail res then [name] else name :: ranUntilFirstFail rest

/-- The name of the first failing test of the list. -/
def firstFailName : List (String × Except String String) → String
  | [] => ""
  | (name, res) :: rest => if isFail res then name else firstFailName rest

theorem RunSuiteLoop_force_on (tests : List (String × Except String String)) :
    ∀ rc0 f0 ran0, (∀ p ∈ tests, (p.2).isOk = true) →
    RunSuiteLoop true rc0 f0 ran0 tests
      = Except.ok ((if tests.any (fun p => isFail p.2) then 1 else rc0),
          f0 ++ (tests.filter (fun p => isFail p.2)).map Prod.fst,
          ran0 ++ tests.map Prod.fst) := by
  induction tests with
  | nil => intro rc0 f0 ran0 _; simp [RunSuiteLoop]
  | cons p rest ih =>
    intro rc0 f0 ran0 hok
    obtain ⟨name, res⟩ := p
    have hpok : res.isOk = true := hok (name, res) (by simp)
    have hrest : ∀ q ∈ rest, (q.2).isOk = true := fun q hq => hok q (by simp [hq])
    cases res with
    | error e => simp [Except.isOk, Except.toBool] at hpok
    | ok testRc =>
      by_cases hf : (testRc == "fail") = true
      · simp only [RunSuiteLoop, hf, if_true]
        rw [ih 1 (f0 ++ [name]) (ran0 ++ [name]) hrest]
        simp [isFail, hf, List.filter_cons, List.append_assoc]
      · have hf' : (testRc == "fail") = false := by simpa using hf
        simp only [RunSuiteLoop, hf]
        rw [if_neg (by simp [hf]), ih rc0 f0 (ran0 ++ [name]) hrest]
        have hany : (((name, Except.ok testRc) :: rest).any fun p => isFail p.2)
            = (rest.any fun p => isFail p.2) := by
          simp [List.any_cons, isFail, hf']
        rw [hany]
        simp [isFail, hf', List.filter_cons, List.append_assoc]

theorem RunSuiteLoop_force_off (tests : List (String × Except String String)) :
    ∀ rc0 f0 ran0, (∀ p ∈ tests, (p.2).isOk = true) →
    tests.any (fun p => isFail p.2) = true →
    RunSuiteLoop false rc0 f0 ran0 tests
      = Except.ok (1, f0 ++ [firstFailName tests], ran0 ++ ranUntilFirstFail tests) := by
  induction tests with
  | nil => intro _ _ _ _ hany; simp at hany
  | cons p rest ih =>
    intro rc0 f0 ran0 hok hany
    obtain ⟨name, res⟩ := p
    have hpok : res.isOk = true := hok (name, res) (by simp)
    have hrest : ∀ q ∈ rest, (q.2).isOk = true := fun q hq => hok q (by simp [hq])
    cases res with
    | error e => simp [Except.isOk, Except.toBool] at hpok
    | ok testRc =>
      by_cases hf : (testRc == "fail") = true
      · simp [RunSuiteLoop, hf, firstFailName, ranUntilFirstFail, isFail]
      · have hany' : rest.any (fun p => isFail p.2) = true := by
          simp [isFail, hf] at hany
          simpa using hany
        simp only [RunSuiteLoop, hf]
        rw [if_neg (by simp [hf]), ih rc0 f0 (ran0 ++ [name]) hrest hany']
        simp [firstFailName, ranUntilFirstFail, isFail, hf, List.append_assoc]

/-- Claim C8: when some test of the suite has the fail outcome (and no test
aborts with a harness error), the suite-level return code is 1 in either
mode; with force mode on, every test of the suite is still run and the
failing tests' names are recorded in the lane's failed-test list; with force
mode off, exactly the tests up to and including the first failing one are
run, and that test's name is recorded. -/
theorem C8_fail_handling (tests : List (String × Except String String))
    (hok : ∀ p ∈ tests, (p.2).isOk = true)
    (hfail : tests.any (fun p => isFail p.2) = true) :
    RunSuite true tests
        = Except.ok (1, (tests.filter (fun p => isFail p.2)).map Prod.fst,
            tests.map Prod.fst)
      ∧ RunSuite false tests
        = Except.ok (1, [firstFailName tests], ranUntilFirstFail tests) := by
  constructor
  · rw [RunSuite, RunSuiteLoop_force_on tests 0 [] [] hok, hfail]
    simp
  · simpa [RunSuite] using RunSuiteLoop_force_off tests 0 [] [] hok hfail

/-- A concrete three-test suite whose middle test fails. -/
def suiteEx : List (String × Except String String) :=
  [("lwt/t1", Except.ok "pass"), ("lwt/t2", Except.ok "fail"), ("lwt/t3", Except.ok "new")]

/-- Witness for claim C8 at a concrete three-test suite whose middle test
fails. -/
theorem C8_fail_handling_witness :
    (∀ p ∈ suiteEx, (p.2).isOk = true)
      ∧ (suiteEx.any (fun p => isFail p.2) = true)
      ∧ (RunSuite true suiteEx
          = Except.ok (1, (suiteEx.filter (fun p => isFail p.2)).map Prod.fst,
              suiteEx.map Prod.fst)
        ∧ RunSuite false suiteEx
          = Except.ok (1, [firstFailName suiteEx], ranUntilFirstFail suiteEx)) :=
  ⟨by decide, by decide, C8_fail_handling suiteEx (by decide) (by decide)⟩

/-! ### Server provisioning: executable check, shutdown, cluster bring-up -/

/-- The identity of an artefact registered during server provisioning:
releasing a leased address, uninstalling a node's data directory and log,
killing a node's process, or dropping the testing keyspace. -/
inductive ArtefactId where
  | releaseURI (uri : Nat)
  | uninstall (node : Nat)
  | stopServer (node : Nat)
  | dropKeyspace (node : Nat)
deriving DecidableEq, BEq

/-- Modelled from the spec: the lane's address-leasing pool.  The leasing
code present under src is an early stub returning one constant address,
while the cluster start requires one address per node and the spec's
invariant is that every leased address is unique within a lane; addresses
are therefore modelled as naturals and a lease returns a fresh address,
larger than every address leased so far, and records it as leased. -/
def Lane.LeaseURI {α : Type} (lane : Lane α) : Nat × Lane α :=
  let uri := lane.leased.foldr max 0 + 1
  (uri, { lane with leased := lane.leased ++ [uri] })

theorem mem_le_foldr_max (l : List Nat) : ∀ a ∈ l, a ≤ l.foldr max 0 := by
  induction l with
  | nil => simp
  | cons b l ih =>
    intro a ha
    rcases List.mem_cons.mp ha with h | h
    · subst h; exact le_max_left _ _
    · exact le_trans (ih a h) (le_max_right _ _)

theorem LeaseURI_fresh {α : Type} (lane : Lane α) : (lane.LeaseURI).1 ∉ lane.leased := by
  intro hmem
  have := mem_le_foldr_max lane.leased _ hmem
  simp only [Lane.LeaseURI] at this
  omega

/-- The address-leasing loop at the head of the cluster start: lease one
address per node, registering the release of each leased address as a
suite-scoped artefact. -/
def leaseLoop : Nat → Lane ArtefactId → List Nat × Lane ArtefactId
  | 0, lane => ([], lane)
  | k + 1, lane =>
    let lease := lane.LeaseURI
    let lane1 := lease.2.AddSuiteArtefact (ArtefactId.releaseURI lease.1)
    let rest := leaseLoop k lane1
    (lease.1 :: rest.1, rest.2)

theorem leaseLoop_spec : ∀ (k : Nat) (lane : Lane ArtefactId),
    (∀ a ∈ (leaseLoop k lane).1, a ∉ lane.leased)
      ∧ (leaseLoop k lane).1.Nodup
      ∧ (∀ a ∈ lane.leased, a ∈ (leaseLoop k lane).2.leased)
      ∧ (leaseLoop k lane).1.length = k
      ∧ (leaseLoop k lane).2.removeBeforeExit = lane.removeBeforeExit := by
  intro k
  induction k with
  | zero => intro lane; simp [leaseLoop]
  | succ k ih =>
    intro lane
    set u := (lane.LeaseURI).1 with hu
    set lane1 := (lane.LeaseURI).2.AddSuiteArtefact (ArtefactId.releaseURI u) with hlane1
    have hleased1 : lane1.leased = lane.leased ++ [u] := by
      simp [hlane1, Lane.AddSuiteArtefact, Lane.LeaseURI, hu]
    obtain ⟨ihFresh, ihNodup, ihMono, ihLen, ihExit⟩ := ih lane1
    have huMem1 : u ∈ lane1.leased := by
      rw [hleased1]; exact List.mem_append_right _ (List.mem_singleton.mpr rfl)
    refine ⟨?_, ?_, ?_, ?_, ?_⟩
    · intro a ha
      rcases List.mem_cons.mp (by simpa [leaseLoop] using ha) with h | h
      · subst h; exact LeaseURI_fresh lane
      · intro hmem
        exact ihFresh a h (by rw [hleased1]; exact List.mem_append_left _ hmem)
    · have hu_notin : u ∉ (leaseLoop k lane1).1 := fun hmem => ihFresh u hmem huMem1
      simpa [leaseLoop] using List.nodup_cons.mpr ⟨hu_notin, ihNodup⟩
    · intro a ha
      simp only [leaseLoop]
      exact ihMono a (by rw [hleased1]; exact List.mem_append_left _ ha)
    · simpa [leaseLoop] using ihLen
    · simpa [leaseLoop, Lane.AddSuiteArtefact, Lane.LeaseURI] using ihExit

/-- A single node's start as launched by the cluster with a preassigned
address and seed list: the install step registers the node's uninstall
artefact as suite-scoped, then the process-kill artefact is registered as
exit-scoped before the process is spawned; `err` abstracts a failure of the
spawn, of the readiness poll or of the keyspace setup, all of which occur
after those registrations; on full success the keyspace-drop artefact is
registered as suite-scoped. -/
def nodeStart (lane : Lane ArtefactId) (node : Nat) (err : Option String) :
    Lane ArtefactId × Option String :=
  let lane1 := lane.AddSuiteArtefact (ArtefactId.uninstall node)
  let lane2 := lane1.AddExitArtefact (ArtefactId.stopServer node)
  match err with
  | some e => (lane2, some e)
  | none => (lane2.AddSuiteArtefact (ArtefactId.dropKeyspace node), none)

/-- The concurrent node-launch phase of the cluster start, modelled as the
nodes' starts executing in an arbitrary completion order; every failing
start sends its error to the buffered status channel, whose content is
collected in send order.  No launch is cancelled by a sibling's failure and
no registration is undone. -/
def clusterStartNodes (err : Nat → Option String) :
    List Nat → Lane ArtefactId → Lane ArtefactId × List String
  | [], lane => (lane, [])
  | i :: order, lane =>
    let step := nodeStart lane i (err i)
    let rest := clusterStartNodes err order step.1
    match step.2 with
    | some e => (rest.1, e :: rest.2)
    | none => (rest.1, rest.2)

/-- The cluster start: lease one address per node registering its release
artefact, launch every node and wait for all launches at the barrier, then
return the first error found on the status channel, or nothing when the
channel is empty. -/
def CQLCluster_Start (k : Nat) (order : List Nat) (err : Nat → Option String)
    (lane : Lane ArtefactId) : List Nat × Lane ArtefactId × Option String :=
  let leases := leaseLoop k lane
  let nodes := clusterStartNodes err order leases.2
  (leases.1, nodes.1, nodes.2.head?)

theorem clusterStartNodes_status (err : Nat → Option String) :
    ∀ (order : List Nat) (lane : Lane ArtefactId),
    (clusterStartNodes err order lane).2 = order.filterMap err := by
  intro order
  induction order with
  | nil => intro lane; simp [clusterStartNodes]
  | cons i order ih =>
    intro lane
    cases herr : err i <;>
      simp [clusterStartNodes, nodeStart, herr, ih, List.filterMap_cons]

theorem clusterStartNodes_exit (err : Nat → Option String) :
    ∀ (order : List Nat) (lane : Lane ArtefactId),
    (clusterStartNodes err order lane).1.removeBeforeExit
      = lane.removeBeforeExit ++ order.map ArtefactId.stopServer := by
  intro order
  induction order with
  | nil => intro lane; simp [clusterStartNodes]
  | cons i order ih =>
    intro lane
    cases herr : err i <;>
      simp [clusterStartNodes, nodeStart, herr, ih, Lane.AddExitArtefact,
        Lane.AddSuiteArtefact, List.append_assoc]

/-- Claim C6: a cluster start over k nodes leases k pairwise-distinct
addresses, one per node; the start returns an error exactly when some node's
start failed; and every node's process-kill artefact is registered on the
lane's exit-scoped queue regardless of sibling failures, so every node that
did start is torn down. -/
theorem C6_cluster_start (k : Nat) (order : List Nat) (err : Nat → Option String)
    (lane : Lane ArtefactId) (hperm : order.Perm (List.range k)) :
    (CQLCluster_Start k order err lane).1.Nodup
      ∧ (CQLCluster_Start k order err lane).1.length = k
      ∧ ((CQLCluster_Start k order err lane).2.2.isSome
          ↔ ∃ i, i < k ∧ (err i).isSome)
      ∧ ∀ i, i < k →
          ArtefactId.stopServer i
            ∈ (CQLCluster_Start k order err lane).2.1.removeBeforeExit := by
  obtain ⟨-, hNodup, -, hLen, hExit⟩ := leaseLoop_spec k lane
  refine ⟨hNodup, hLen, ?_, ?_⟩
  · rw [show (CQLCluster_Start k order err lane).2.2
        = (clusterStartNodes err order (leaseLoop k lane).2).2.head? from rfl,
      clusterStartNodes_status]
    rw [List.head?_isSome]
    constructor
    · intro hne
      have : ¬∀ i ∈ order, err i = none := fun hall =>
        hne (List.filterMap_eq_nil_iff.mpr hall)
      push_neg at this
      obtain ⟨i, hi, hsome⟩ := this
      exact ⟨i, by simpa using List.mem_range.mp (hperm.mem_iff.mp hi),
        Option.ne_none_iff_isSome.mp hsome⟩
    · rintro ⟨i, hik, hsome⟩ hnil
      have hi : i ∈ order := hperm.mem_iff.mpr (List.mem_range.mpr hik)
      have := List.filterMap_eq_nil_iff.mp hnil i hi
      rw [this] at hsome
      simp at hsome
  · intro i hik
    rw [show (CQLCluster_Start k order err lane).2.1
        = (clusterStartNodes err order (leaseLoop k lane).2).1 from rfl,
      clusterStartNodes_exit]
    refine List.mem_append_right _ ?_
    exact List.mem_map.mpr ⟨i, hperm.mem_iff.mpr (List.mem_range.mpr hik), rfl⟩

/-- A lane as freshly initialized for a harness run: empty queues, no failed
tests, no leased addresses. -/
def emptyLane : Lane ArtefactId :=
  { removeBeforeNextSuite := [], removeBeforeExit := [], dir := "var/1", id := "1",
    failed := [], leased := [] }

/-- A concrete node-failure pattern: node 1 fails to start, the others
succeed. -/
def clusterErrEx : Nat → Option String :=
  fun i => if i == 1 then some "failed to start server" else none

/-- Witness for claim C6: a three-node cluster start, completion order 2, 0,
1, where node 1 fails. -/
theorem C6_cluster_start_witness :
    ([2, 0, 1] : List Nat).Perm (List.range 3)
      ∧ ((CQLCluster_Start 3 [2, 0, 1] clusterErrEx emptyLane).1.Nodup
        ∧ (CQLCluster_Start 3 [2, 0, 1] clusterErrEx emptyLane).1.length = 3
        ∧ ((CQLCluster_Start 3 [2, 0, 1] clusterErrEx emptyLane).2.2.isSome
            ↔ ∃ i, i < 3 ∧ (clusterErrEx i).isSome)
        ∧ ∀ i, i < 3 →
            ArtefactId.stopServer i
              ∈ (CQLCluster_Start 3 [2, 0, 1] clusterErrEx emptyLane).2.1.removeBeforeExit) :=
  ⟨by decide, C6_cluster_start 3 [2, 0, 1] clusterErrEx emptyLane (by decide)⟩

/-- The executability check of the single-mode start, as written in the
source: stat the configured server binary and report the not-executable
error when the check of the mode word fires; the argument is the stat mode
of an existing file. -/
def FindScyllaExecutable (modeBits : Nat) : Except String Unit :=
  if modeBits ||| 0o111 == 0 then Except.error "is not executable"
  else Except.ok ()

/-- Modelled from the spec: the intended executability check — fail
precisely when none of the execute permission bits of the mode word is
set. -/
def FindScyllaExecutableIntended (modeBits : Nat) : Except String Unit :=
  if modeBits &&& 0o111 == 0 then Except.error "is not executable"
  else Except.ok ()

/-- The single-mode start pipeline: check the executable; on success install
(lease an address, register its release and the node's uninstall artefact as
suite-scoped), register the process-kill artefact as exit-scoped, spawn and
wait for readiness (`err` abstracts their failure), and finish the keyspace
setup. -/
def CQLServer_Start_single (modeBits : Nat) (node : Nat) (err : Option String)
    (lane : Lane ArtefactId) : Lane ArtefactId × Option String :=
  match FindScyllaExecutable modeBits with
  | Except.error e => (lane, some e)
  | Except.ok _ =>
    let lease := lane.LeaseURI
    let lane1 := lease.2.AddSuiteArtefact (ArtefactId.releaseURI lease.1)
    nodeStart lane1 node err

/-- Claim C4 names a code bug: the source tests the mode word with a bitwise
or instead of a bitwise and, so the not-executable rejection can never fire;
for an existing binary with mode 644 the check passes (while the intended
check rejects it), the start proceeds, and artefacts are registered on the
lane. -/
theorem C4_nonexecutable_binary_not_rejected :
    (∀ modeBits : Nat, FindScyllaExecutable modeBits = Except.ok ())
      ∧ FindScyllaExecutableIntended 0o644 = Except.error "is not executable"
      ∧ (CQLServer_Start_single 0o644 0 none emptyLane).2 = none
      ∧ (CQLServer_Start_single 0o644 0 none emptyLane).1.removeBeforeExit ≠ [] := by
  refine ⟨?_, by rfl, by rfl, by decide⟩
  intro modeBits
  have hne : modeBits ||| 0o111 ≠ 0 := by
    intro h
    have hb := congrArg (fun n => Nat.testBit n 0) h
    simp [Nat.testBit_or] at hb
  simp [FindScyllaExecutable, hne]

/-- The individual steps performed by the process-kill artefact's release
operation. -/
inductive StopAction where
  | logStopping
  | killProcess
  | armForcedKillTimer
  | stopForcedKillTimer
  | waitProcess
  | logStopped
deriving DecidableEq, BEq

/-- The release operation of the process-kill artefact, as the sequence of
steps it performs in source order: log, send the kill signal to the process,
arm the forced-kill timer with its 3-second grace window, stop that timer,
wait for the process to exit, log again. -/
def CQLServer_stop_artefact_Remove : List StopAction :=
  [StopAction.logStopping, StopAction.killProcess, StopAction.armForcedKillTimer,
    StopAction.stopForcedKillTimer, StopAction.waitProcess, StopAction.logStopped]

/-- Claim C5 names a code bug: in the release operation of the process-kill
artefact the forced-kill fallback timer is disarmed immediately after being
armed, before the blocking wait for the process to exit, so the fallback can
never fire; the claim (and the source's own comment) requires the disarm to
happen only after the exit is observed. -/
theorem C5_forced_kill_disarmed_before_wait :
    List.indexOf StopAction.stopForcedKillTimer CQLServer_stop_artefact_Remove
        < List.indexOf StopAction.waitProcess CQLServer_stop_artefact_Remove
      ∧ List.indexOf StopAction.armForcedKillTimer CQLServer_stop_artefact_Remove
        < List.indexOf StopAction.stopForcedKillTimer CQLServer_stop_artefact_Remove := by
  decide

end Yacht
